import Mathlib

/-!
Shallow embedding of `handler.go` from the nano game-server framework.

The embedding follows the source file closely:

* `processPacket`, `processMessage`, `register`, `pcall`, `packetBacklog`,
  `newHandlerService` keep their source names.
* Bytes are modelled as `List Nat`; machine `uint16` arithmetic appears as
  explicit `% 65536`.
* The per-connection read loop of `handle` (the packet batch processing and
  close-on-error behaviour) is modelled by `processPackets`.
* The `chLocalProcess` work-item branch of the `dispatch` loop is modelled by
  `dispatchWorkItem`; the panic-isolating wrapper by `pcall` over an abstract
  `HandlerOutcome`.
* External collaborators (the packet/message codecs, the serializer, the
  inbound pipeline stages, the authentication callback) are parameters of an
  `Env` record, as in the source they are package-level state or arguments.
-/

/-- Modelled from the spec: the agent status constants live in `agent.go`,
which is not among the provided sources.  The spec's protocol phases are
Start, Handshake-Ack-Pending, Working, Closed, in that order; the source
compares them numerically (`agent.status() < statusWorking`). -/
def statusStart : Nat := 0

/-- Modelled from the spec: the Handshake-Ack-Pending phase. -/
def statusHandshake : Nat := 1

/-- Modelled from the spec: the Working phase. -/
def statusWorking : Nat := 2

/-- Modelled from the spec: the terminal Closed phase. -/
def statusClosed : Nat := 3

/-- Opaque payload bytes. -/
abbrev Bytes := List Nat

/-- Packet type tags, as in `internal/packet`: Handshake, HandshakeAck,
Data, Heartbeat. -/
inductive PacketType where
  | handshake
  | handshakeAck
  | data
  | heartbeat
deriving DecidableEq

/-- A decoded frame: a type tag and an opaque payload. -/
structure Packet where
  type : PacketType
  data : Bytes
deriving DecidableEq

/-- Message type tags relevant to inbound client traffic, as consumed by
`processMessage`: Request and Notify. -/
inductive MessageType where
  | request
  | notify
deriving DecidableEq

/-- A decoded application message: type tag, numeric id (meaningful for
Request), route string, opaque payload. -/
structure Message where
  type : MessageType
  id : Nat
  route : String
  data : Bytes
deriving DecidableEq

/-- A registered handler descriptor (`component.Handler`): whether it takes
the raw payload, and an abstract identifier standing for its reflective
receiver/method pair. -/
structure HandlerDesc where
  isRawArg : Bool
  methodId : Nat
deriving DecidableEq

/-- One element of the invocation argument list built by `processMessage`:
the receiver, the framework context argument `agent.srv`, the (possibly
deserialized) payload, and the response closure, which captures the message's
response id (`agent.session.ResponseMID(lastMid, v)`). -/
inductive ArgVal where
  | receiver (methodId : Nat)
  | srv
  | payload (d : Bytes)
  | responseFunc (mid : Nat)
deriving DecidableEq

/-- Recognizer for the response-closure argument. -/
def isResponseFunc : ArgVal → Bool
  | .responseFunc _ => true
  | _ => false

/-- The `unhandledMessage` struct enqueued on `chLocalProcess`.  The owning
agent's mutable state is threaded explicitly through the functions below
rather than stored in the item. -/
structure UnhandledMessage where
  lastMid : Nat
  method : Nat
  args : List ArgVal
deriving DecidableEq

/-- A Go buffered channel: a bounded FIFO with a fixed capacity. -/
structure Chan (α : Type) where
  capacity : Nat
  buf : List α

/-- Go buffered-channel send: when the buffer is below capacity the element
is appended; otherwise the send blocks (modelled as `none` — the element
stays with the sender and is never dropped). -/
def chanSend {α : Type} (c : Chan α) (x : α) : Option (Chan α) :=
  if c.buf.length < c.capacity then some { c with buf := c.buf ++ [x] } else none

/-- Unhandled message buffer size (`const packetBacklog = 1024`). -/
def packetBacklog : Nat := 1024

/-- The `handlerService` struct: registered service names, the route-to-handler
table, and the two bounded channels. -/
structure handlerService where
  services : List String
  handlers : List (String × HandlerDesc)
  chLocalProcess : Chan UnhandledMessage
  chCloseSession : Chan Nat

/-- The `newHandlerService` constructor: empty maps, channels of capacity
`packetBacklog`. -/
def newHandlerService : handlerService :=
  { services := []
    handlers := []
    chLocalProcess := { capacity := packetBacklog, buf := [] }
    chCloseSession := { capacity := packetBacklog, buf := [] } }

/-- The blocking enqueue of a work item onto `chLocalProcess` at the end of
`processMessage` (`h.chLocalProcess <- unhandledMessage...`). -/
def enqueueWork (h : handlerService) (m : UnhandledMessage) : Option handlerService :=
  (chanSend h.chLocalProcess m).map (fun c => { h with chLocalProcess := c })

/-- Per-connection agent state: protocol status, last response id, last
activity timestamp, the session's authenticated flag and last handler access
time, plus the observable connection effects (ordered outbound writes, a
recorded kick payload, and whether the connection is closed). -/
structure Agent where
  status : Nat
  lastMid : Nat
  lastAt : Nat
  auth : Bool
  lastHandlerAccess : Nat
  writes : List Bytes
  kicked : Option Bytes
  connClosed : Bool
deriving DecidableEq

/-- Modelled from the spec: `newAgent` lives in `agent.go`, outside the
provided sources; a fresh agent starts in the Start phase, unauthenticated,
with no activity recorded. -/
def newAgent : Agent :=
  { status := statusStart
    lastMid := 0
    lastAt := 0
    auth := false
    lastHandlerAccess := 0
    writes := []
    kicked := none
    connClosed := false }

/-- Modelled from the spec: `agent.Kick` lives in `agent.go`, outside the
provided sources; per the spec it terminates the session with the
caller-supplied error payload and closes the connection.  The protocol status
field itself is not touched by the kick path of `processPacket`. -/
def kick (ag : Agent) (errMsg : Bytes) : Agent :=
  { ag with kicked := some errMsg, connClosed := true }

/-- Package-level collaborators of `handler.go`: the optional authentication
callback `env.authFunc` (applied to the decoded handshake payload; a `some`
result is the rejection payload), the precomputed handshake response bytes
`hrd`, the inbound pipeline stages, the payload serializer
(`serializer.Unmarshal`, `none` on failure), the message codec
(`message.Decode`), and the current time. -/
structure Env where
  authFunc : Option (Bytes → Option Bytes)
  hrd : Bytes
  pipeline : List (Bytes → Except String Bytes)
  unmarshal : Bytes → Option Bytes
  decode : Bytes → Except String Message
  now : Nat

/-- The inbound pipeline loop of `processMessage`: stages run in order, each
transforming the payload; the first failing stage aborts. -/
def runPipeline : List (Bytes → Except String Bytes) → Bytes → Except String Bytes
  | [], b => .ok b
  | f :: fs, b =>
    match f b with
    | .error e => .error e
    | .ok b2 => runPipeline fs b2

/-- Association-list lookup, modelling Go map indexing. -/
def lookupMap {α : Type} (k : String) : List (String × α) → Option α
  | [] => none
  | p :: rest => if p.1 = k then some p.2 else lookupMap k rest

/-- Association-list insert-or-overwrite, modelling Go map assignment. -/
def mapInsert {α : Type} (k : String) (v : α) : List (String × α) → List (String × α)
  | [] => [(k, v)]
  | p :: rest => if p.1 = k then (k, v) :: rest else p :: mapInsert k v rest

/-- `processMessage`: determine the response id from the message type, resolve
the route, run the inbound pipeline, deserialize (unless the handler takes the
raw payload), build the argument list — appending the response closure only
for Request messages — stamp the session's last handler access time, and
produce the work item to enqueue.  All failure branches log and return with
no work item and the agent untouched. -/
def processMessage (env : Env) (h : handlerService) (ag : Agent) (msg : Message) :
    Agent × Option UnhandledMessage :=
  let lastMid : Nat :=
    match msg.type with
    | .request => msg.id
    | .notify => 0
  match lookupMap msg.route h.handlers with
  | none => (ag, none)
  | some hd =>
    match runPipeline env.pipeline msg.data with
    | .error _ => (ag, none)
    | .ok payload =>
      match (if hd.isRawArg then some payload else env.unmarshal payload) with
      | none => (ag, none)
      | some d =>
        let args := [ArgVal.receiver hd.methodId, ArgVal.srv, ArgVal.payload d] ++
          (match msg.type with
           | .request => [ArgVal.responseFunc lastMid]
           | .notify => [])
        ({ ag with lastHandlerAccess := env.now },
         some { lastMid := lastMid, method := hd.methodId, args := args })

/-- The error returned by `processPacket` when a Data packet arrives on a
connection whose status is below Working. -/
def dataBeforeAckErr : String :=
  "receive data on socket which not yet ACK, session will be closed immediately"

/-- The Data branch of `processPacket` once the status check has passed:
decode the message (a decode failure is returned as a connection error) and
hand it to `processMessage`; on success the last-activity timestamp is
refreshed. -/
def handleData (env : Env) (h : handlerService) (ag : Agent) (raw : Bytes) :
    Except String (Agent × Option UnhandledMessage) :=
  match env.decode raw with
  | .error e => .error e
  | .ok msg =>
    let r := processMessage env h ag msg
    .ok ({ r.1 with lastAt := env.now }, r.2)

/-- `processPacket`, faithful to the source switch:

* Handshake with a configured auth callback: on rejection, kick with the
  callback's payload (no status change, nothing written); on acceptance,
  write `hrd`, set `session.Auth`, move to `statusHandshake`.
* Handshake with no auth callback configured: only write `hrd`.
* HandshakeAck: unconditionally move to `statusWorking`.
* Data: reject with an error when the status is below Working, otherwise
  decode and route.
* Heartbeat: no-op.

Every non-error branch refreshes `lastAt`. -/
def processPacket (env : Env) (h : handlerService) (ag : Agent) (p : Packet) :
    Except String (Agent × Option UnhandledMessage) :=
  match p.type with
  | .handshake =>
    match env.authFunc with
    | some f =>
      match f p.data with
      | some errMsg => .ok ({ kick ag errMsg with lastAt := env.now }, none)
      | none =>
        .ok ({ ag with writes := ag.writes ++ [env.hrd], auth := true,
                       status := statusHandshake, lastAt := env.now }, none)
    | none =>
      .ok ({ ag with writes := ag.writes ++ [env.hrd], lastAt := env.now }, none)
  | .handshakeAck =>
    .ok ({ ag with status := statusWorking, lastAt := env.now }, none)
  | .data =>
    if ag.status < statusWorking then .error dataBeforeAckErr
    else handleData env h ag p.data
  | .heartbeat =>
    .ok ({ ag with lastAt := env.now }, none)

/-- The packet loop of `handle`: packets of a batch are processed strictly in
order; the first `processPacket` error is logged and terminates the read loop,
whose deferred cleanup closes the connection.  The produced work items are
collected in order. -/
def processPackets (env : Env) (h : handlerService) :
    Agent → List Packet → Agent × List UnhandledMessage × Option String
  | ag, [] => (ag, [], none)
  | ag, p :: ps =>
    match processPacket env h ag p with
    | .error e => ({ ag with connClosed := true }, [], some e)
    | .ok (ag2, wi) =>
      let r := processPackets env h ag2 ps
      (r.1, wi.toList ++ r.2.1, r.2.2)

/-- The `chLocalProcess` branch of the `dispatch` loop: when the owning agent
is not Closed, stamp its last response id and spawn the handler call
(`go pcall`); the Bool records whether the call was spawned. -/
def dispatchWorkItem (ag : Agent) (m : UnhandledMessage) : Agent × Bool :=
  if ag.status ≠ statusClosed then ({ ag with lastMid := m.lastMid }, true)
  else (ag, false)

/-- Abstract outcome of one business-handler invocation: it raises a runtime
fault, returns a non-nil error value, or completes cleanly. -/
inductive HandlerOutcome where
  | panics (msg : String)
  | returnsError (msg : String)
  | returnsOk
deriving DecidableEq

/-- Log records produced by `pcall`. -/
inductive LogEntry where
  | dispatchPanic (msg : String)
  | stackTrace
  | handlerError (msg : String)
deriving DecidableEq

/-- The raw handler invocation inside `pcall`: a runtime fault propagates as
an exception (`Except.error`), otherwise the handler's returned error value
(if any) comes back. -/
def callHandler : HandlerOutcome → Except String (Option String)
  | .panics m => .error m
  | .returnsError m => .ok (some m)
  | .returnsOk => .ok none

/-- `pcall`: the deferred `recover` turns a runtime fault into a log line
(prefixed `nano/dispatch:`) plus a stack trace; a non-nil returned error is
logged; in every case `pcall` returns normally, yielding only its log
records. -/
def pcall (o : HandlerOutcome) : List LogEntry :=
  match callHandler o with
  | .error m => [.dispatchPanic ("nano/dispatch: " ++ m), .stackTrace]
  | .ok (some e) => [.handlerError e]
  | .ok none => []

/-- Logs produced by running a sequence of handler invocations through
`pcall`, as the dispatch loop spawns them one per work item. -/
def dispatchLogs (os : List HandlerOutcome) : List LogEntry :=
  (os.map pcall).flatten

/-- Modelled from the spec: `component.NewService` and
`Service.ExtractHandler` live in the `component` package, outside the provided
sources.  A component yields a service name and, when handler extraction
succeeds, a name-qualified table of handler descriptors. -/
structure Component where
  name : String
  extract : Except String (List (String × HandlerDesc))

/-- The registration-time state touched by `register`: the handler service's
maps, the route-alias dictionary `env.dict`, and the dictionary last published
to the message codec via `message.SetDictionary`. -/
structure RegState where
  h : handlerService
  dict : List (String × Nat)
  published : List (String × Nat)

/-- The registration loop of `register`: for each extracted handler, compute
`fullName = serviceName + "." + handlerName`, assign it the alias
`uint16(len(env.dict)) + 1` (explicit `% 65536` for the `uint16` conversion
and addition), and insert into both the dictionary and the handler table. -/
def insertHandlers (sname : String) :
    List (String × HandlerDesc) → List (String × Nat) → List (String × HandlerDesc) →
      List (String × Nat) × List (String × HandlerDesc)
  | [], dict, handlers => (dict, handlers)
  | nh :: rest, dict, handlers =>
    insertHandlers sname rest
      (mapInsert (sname ++ "." ++ nh.1) ((dict.length % 65536 + 1) % 65536) dict)
      (mapInsert (sname ++ "." ++ nh.1) nh.2 handlers)

/-- `register`: reject a duplicate service name before any mutation, run
handler extraction (an extraction error also precedes any mutation), then
record the service, insert every handler with its alias, and publish the
updated dictionary to the message codec. -/
def register (r : RegState) (c : Component) : RegState × Option String :=
  if c.name ∈ r.h.services then
    (r, some ("handler: service already defined: " ++ c.name))
  else
    match c.extract with
    | .error e => (r, some e)
    | .ok hs =>
      let res := insertHandlers c.name hs r.dict r.h.handlers
      ({ h := { services := r.h.services ++ [c.name]
                handlers := res.2
                chLocalProcess := r.h.chLocalProcess
                chCloseSession := r.h.chCloseSession }
         dict := res.1
         published := res.1 }, none)

/-- The qualified route names a registration derives from a component's
handler table. -/
def fullNames (sname : String) (hs : List (String × HandlerDesc)) : List String :=
  hs.map (fun nh => sname ++ "." ++ nh.1)

/-- The dictionary entries appended by a registration whose insertions are all
fresh: the route inserted when the dictionary has size `base` receives the
alias `(base % 65536 + 1) % 65536`. -/
def aliasEntries (sname : String) (base : Nat) :
    List (String × HandlerDesc) → List (String × Nat)
  | [] => []
  | nh :: rest =>
    (sname ++ "." ++ nh.1, (base % 65536 + 1) % 65536) :: aliasEntries sname (base + 1) rest

/-! ### Concrete fixtures used by counterexamples and witnesses -/

/-- An environment with no authentication callback configured; the codec
functions are irrelevant stubs for handshake-only scenarios. -/
def env0 : Env :=
  { authFunc := none
    hrd := [1, 2, 3]
    pipeline := []
    unmarshal := fun _ => none
    decode := fun _ => .error "decode stub"
    now := 5 }

/-- An environment whose authentication callback accepts every handshake. -/
def envAuthOk : Env := { env0 with authFunc := some (fun _ => none) }

/-- An environment whose authentication callback rejects every handshake with
the payload `[9]`. -/
def envRej : Env := { env0 with authFunc := some (fun _ => some [9]) }

/-- A sample handler descriptor taking the raw payload. -/
def hd0 : HandlerDesc := { isRawArg := true, methodId := 0 }

/-- A handler service with the single route `s.h` registered. -/
def hs1 : handlerService := { newHandlerService with handlers := [("s.h", hd0)] }

/-- A Notify message addressed to an unregistered route. -/
def msgU : Message := { type := .notify, id := 0, route := "nope", data := [] }

/-- A Request message with id 7 addressed to the registered route `s.h`. -/
def msgR : Message := { type := .request, id := 7, route := "s.h", data := [] }

/-- An environment whose message codec decodes every payload to `msgU`. -/
def envDec : Env := { env0 with decode := fun _ => .ok msgU }

/-- An agent that has completed the handshake exchange (status Working). -/
def agW : Agent := { newAgent with status := statusWorking }

/-! ### C1 — handshake success path -/

/-- Claim C1, counterexample: a Handshake packet processed with NO
authentication callback configured writes the response bytes, but the
resulting agent's session is NOT marked authenticated and its status does NOT
transition to Handshake-Ack-Pending — the source's `else` branch only performs
the write.  This refutes the claim for the no-callback case. -/
theorem C1_counterexample :
    processPacket env0 newHandlerService newAgent { type := .handshake, data := [] } =
      .ok ({ newAgent with writes := [[1, 2, 3]], lastAt := 5 }, none) ∧
    ({ newAgent with writes := [[1, 2, 3]], lastAt := 5 } : Agent).auth = false ∧
    ({ newAgent with writes := [[1, 2, 3]], lastAt := 5 } : Agent).status ≠ statusHandshake := by
  exact ⟨rfl, rfl, by decide⟩

/-- Claim C1, amended: when an authentication callback is configured and
returns no error, the precomputed handshake-response bytes are written exactly
once, the session's authenticated flag is set, and the status transitions to
Handshake-Ack-Pending; when no callback is configured, the response bytes are
written exactly once but the authenticated flag is not set and the status is
unchanged. -/
theorem C1_amended (env : Env) (h : handlerService) (ag : Agent) (d : Bytes) :
    (∀ f, env.authFunc = some f → f d = none →
      processPacket env h ag { type := .handshake, data := d } =
        .ok ({ ag with writes := ag.writes ++ [env.hrd], auth := true,
                       status := statusHandshake, lastAt := env.now }, none)) ∧
    (env.authFunc = none →
      processPacket env h ag { type := .handshake, data := d } =
        .ok ({ ag with writes := ag.writes ++ [env.hrd], lastAt := env.now }, none)) := by
  constructor
  · intro f hf hfd
    simp [processPacket, hf, hfd]
  · intro hf
    simp [processPacket, hf]

/-- Witness for C1_amended at concrete inputs: an accepting callback and the
no-callback environment. -/
theorem C1_witness :
    processPacket envAuthOk newHandlerService newAgent { type := .handshake, data := [] } =
      .ok ({ newAgent with writes := newAgent.writes ++ [envAuthOk.hrd], auth := true,
                           status := statusHandshake, lastAt := envAuthOk.now }, none) ∧
    processPacket env0 newHandlerService newAgent { type := .handshake, data := [] } =
      .ok ({ newAgent with writes := newAgent.writes ++ [env0.hrd],
                           lastAt := env0.now }, none) :=
  ⟨(C1_amended envAuthOk newHandlerService newAgent []).1 (fun _ => none) rfl rfl,
   (C1_amended env0 newHandlerService newAgent []).2 rfl⟩

/-! ### C2 — Data before Working is connection-fatal -/

/-- Claim C2: a Data packet processed while the agent's status is below
Working makes `processPacket` return the protocol-violation error without
decoding the message (the returned error is `dataBeforeAckErr`, produced
before `message.Decode` is consulted), and the read loop terminates with the
connection closed, enqueuing no work item for that packet or any later packet
of the batch. -/
theorem C2_data_before_working (env : Env) (h : handlerService) (ag : Agent)
    (p : Packet) (rest : List Packet)
    (hst : ag.status < statusWorking) (hp : p.type = .data) :
    processPacket env h ag p = .error dataBeforeAckErr ∧
    processPackets env h ag (p :: rest) =
      ({ ag with connClosed := true }, [], some dataBeforeAckErr) := by
  have h1 : processPacket env h ag p = .error dataBeforeAckErr := by
    simp [processPacket, hp, hst]
  exact ⟨h1, by simp [processPackets, h1]⟩

/-- Witness for C2 at a concrete input: a fresh agent (status Start) receiving
a Data packet. -/
theorem C2_witness :
    processPacket env0 newHandlerService newAgent { type := .data, data := [] } =
      .error dataBeforeAckErr ∧
    processPackets env0 newHandlerService newAgent [{ type := .data, data := [] }] =
      ({ newAgent with connClosed := true }, [], some dataBeforeAckErr) :=
  C2_data_before_working env0 newHandlerService newAgent _ [] (by decide) rfl

/-! ### C3 — response closure only for Request messages -/

/-- Claim C3: whenever `processMessage` produces a work item, a Notify message
yields an argument list with no response closure at all, while a Request
message with its nonzero id yields exactly one response closure, bound to that
id; the work item carries the same id, and dispatching it to a non-Closed
agent stamps that id as the agent's last response id. -/
theorem C3_response_binding (env : Env) (h : handlerService) (ag ag2 : Agent)
    (msg : Message) (wi : UnhandledMessage)
    (hp : processMessage env h ag msg = (ag2, some wi)) :
    (msg.type = .notify → wi.args.filter isResponseFunc = []) ∧
    (msg.type = .request → msg.id ≠ 0 →
      wi.args.filter isResponseFunc = [ArgVal.responseFunc msg.id] ∧
      wi.lastMid = msg.id ∧
      ∀ ag3 : Agent, ag3.status ≠ statusClosed →
        (dispatchWorkItem ag3 wi).1.lastMid = msg.id) := by
  unfold processMessage at hp
  rcases hl : lookupMap msg.route h.handlers with _ | hd <;> simp only [hl] at hp
  · simp at hp
  rcases hpl : runPipeline env.pipeline msg.data with e | payload <;> simp only [hpl] at hp
  · simp at hp
  rcases hdes : (if hd.isRawArg then some payload else env.unmarshal payload) with _ | d <;>
    simp only [hdes] at hp
  · simp at hp
  cases hmt : msg.type <;> simp only [hmt] at hp <;>
    rw [Prod.ext_iff] at hp <;> obtain ⟨-, hsnd⟩ := hp <;>
    rw [Option.some.injEq] at hsnd <;> subst hsnd
  · constructor
    · intro hco
      simp [hmt] at hco
    · intro _ _
      refine ⟨by simp [isResponseFunc], rfl, ?_⟩
      intro ag3 hst
      simp [dispatchWorkItem, hst]
  · constructor
    · intro _
      simp [isResponseFunc]
    · intro hco
      simp [hmt] at hco

/-- Witness for C3 at concrete inputs: a Notify and a Request message on the
registered route `s.h`, the Request carrying the nonzero id 7. -/
theorem C3_witness :
    (({ lastMid := 0, method := 0,
        args := [ArgVal.receiver 0, ArgVal.srv, ArgVal.payload []] } :
          UnhandledMessage).args.filter isResponseFunc = []) ∧
    (({ lastMid := 7, method := 0,
        args := [ArgVal.receiver 0, ArgVal.srv, ArgVal.payload [],
                 ArgVal.responseFunc 7] } :
          UnhandledMessage).args.filter isResponseFunc = [ArgVal.responseFunc 7]) ∧
    (dispatchWorkItem newAgent
      { lastMid := 7, method := 0,
        args := [ArgVal.receiver 0, ArgVal.srv, ArgVal.payload [],
                 ArgVal.responseFunc 7] }).1.lastMid = 7 := by
  have hn := (C3_response_binding env0 hs1 newAgent
    { newAgent with lastHandlerAccess := env0.now }
    { type := .notify, id := 0, route := "s.h", data := [] }
    { lastMid := 0, method := 0,
      args := [ArgVal.receiver 0, ArgVal.srv, ArgVal.payload []] } rfl).1 rfl
  have hr := (C3_response_binding env0 hs1 newAgent
    { newAgent with lastHandlerAccess := env0.now } msgR
    { lastMid := 7, method := 0,
      args := [ArgVal.receiver 0, ArgVal.srv, ArgVal.payload [],
               ArgVal.responseFunc 7] } rfl).2 rfl (by decide)
  exact ⟨hn, hr.1, hr.2.2 newAgent (by decide)⟩

/-! ### C4 — alias assignment and publication -/

/-- Inserting a key absent from an association list appends it. -/
theorem mapInsert_not_mem {α : Type} (k : String) (v : α) (l : List (String × α))
    (hk : ∀ p ∈ l, p.1 ≠ k) : mapInsert k v l = l ++ [(k, v)] := by
  induction l with
  | nil => rfl
  | cons p rest ih =>
    have hp : p.1 ≠ k := hk p (by simp)
    simp only [mapInsert, if_neg hp, List.cons_append, List.cons.injEq, true_and]
    exact ih (fun q hq => hk q (by simp [hq]))

/-- When every qualified route of a registration is fresh for the dictionary
and the routes are pairwise distinct, the registration loop appends exactly
the `aliasEntries` block to the dictionary. -/
theorem insertHandlers_dict (sname : String) (hs : List (String × HandlerDesc))
    (dict : List (String × Nat)) (hmap : List (String × HandlerDesc))
    (hnd : (fullNames sname hs).Nodup)
    (hfresh : ∀ fn ∈ fullNames sname hs, ∀ p ∈ dict, p.1 ≠ fn) :
    (insertHandlers sname hs dict hmap).1 = dict ++ aliasEntries sname dict.length hs := by
  induction hs generalizing dict hmap with
  | nil => simp [insertHandlers, aliasEntries]
  | cons nh rest ih =>
    have hmem : (sname ++ "." ++ nh.1) ∈ fullNames sname (nh :: rest) := by
      simp [fullNames]
    have hfn : ∀ p ∈ dict, p.1 ≠ sname ++ "." ++ nh.1 :=
      fun p hp => hfresh _ hmem p hp
    have hins :
        mapInsert (sname ++ "." ++ nh.1) ((dict.length % 65536 + 1) % 65536) dict =
          dict ++ [(sname ++ "." ++ nh.1, (dict.length % 65536 + 1) % 65536)] :=
      mapInsert_not_mem _ _ _ hfn
    have hnd2 : (fullNames sname rest).Nodup := by
      have := hnd
      simp only [fullNames, List.map_cons, List.nodup_cons] at this
      exact this.2
    have hhead : (sname ++ "." ++ nh.1) ∉ fullNames sname rest := by
      have := hnd
      simp only [fullNames, List.map_cons, List.nodup_cons] at this
      simpa [fullNames] using this.1
    have hfresh2 : ∀ fn ∈ fullNames sname rest,
        ∀ p ∈ dict ++ [(sname ++ "." ++ nh.1, (dict.length % 65536 + 1) % 65536)],
          p.1 ≠ fn := by
      intro fn hfn2 p hp
      rcases List.mem_append.mp hp with hd | ht
      · exact hfresh fn (by simp [fullNames] at hfn2 ⊢; exact Or.inr hfn2) p hd
      · have : p = (sname ++ "." ++ nh.1, (dict.length % 65536 + 1) % 65536) := by
          simpa using ht
        subst this
        intro hcon
        subst hcon
        exact hhead hfn2
    have := ih (dict ++ [(sname ++ "." ++ nh.1, (dict.length % 65536 + 1) % 65536)])
      (mapInsert (sname ++ "." ++ nh.1) nh.2 hmap) hnd2 hfresh2
    simp only [insertHandlers, hins] at this ⊢
    rw [this]
    simp [aliasEntries, List.append_assoc]

/-- Without `uint16` wraparound (total routes below 65536), the assigned
aliases are exactly the consecutive values from `base + 1` upward. -/
theorem aliasEntries_no_wrap (sname : String) (hs : List (String × HandlerDesc))
    (base : Nat) (hb : base + hs.length < 65536) :
    (aliasEntries sname base hs).map Prod.snd = List.range' (base + 1) hs.length := by
  induction hs generalizing base with
  | nil => simp [aliasEntries]
  | cons nh rest ih =>
    have h1 : base % 65536 = base := Nat.mod_eq_of_lt (by simp at hb; omega)
    have h2 : (base + 1) % 65536 = base + 1 := Nat.mod_eq_of_lt (by simp at hb; omega)
    have h3 : (base + 1) + rest.length < 65536 := by simp at hb; omega
    simp [aliasEntries, h1, h2, ih (base + 1) h3, List.range']

/-- Every position of a registration block receives the alias computed from
the dictionary size at its insertion. -/
theorem aliasEntries_mem (sname : String) (hs : List (String × HandlerDesc))
    (base i : Nat) (hi : i < hs.length) :
    (sname ++ "." ++ (hs.get ⟨i, hi⟩).1, ((base + i) % 65536 + 1) % 65536) ∈
      aliasEntries sname base hs := by
  induction hs generalizing base i with
  | nil => cases hi
  | cons nh rest ih =>
    cases i with
    | zero => simp [aliasEntries]
    | succ n =>
      have hn : n < rest.length := Nat.lt_of_succ_lt_succ hi
      have harith : base + (n + 1) = (base + 1) + n := by omega
      rw [harith]
      exact List.mem_cons_of_mem _ (ih (base + 1) n hn)

/-- Claim C4, amended: a successful registration whose qualified routes are
pairwise distinct and fresh for the dictionary appends exactly one entry per
route, the route inserted when the dictionary holds `n` entries receiving the
`uint16` alias `(n % 65536 + 1) % 65536`; existing entries are untouched
(stability), the updated dictionary is published to the message codec, and as
long as the total number of routes stays below 65536 the new aliases are the
consecutive values `old size + 1, old size + 2, ...` — monotonically
increasing from 1 for a registry grown from empty. -/
theorem C4_amended (r : RegState) (c : Component) (hs : List (String × HandlerDesc))
    (hex : c.extract = .ok hs) (hdup : c.name ∉ r.h.services)
    (hnd : (fullNames c.name hs).Nodup)
    (hfresh : ∀ fn ∈ fullNames c.name hs, ∀ p ∈ r.dict, p.1 ≠ fn) :
    (register r c).2 = none ∧
    (register r c).1.dict = r.dict ++ aliasEntries c.name r.dict.length hs ∧
    (register r c).1.published = (register r c).1.dict ∧
    (r.dict.length + hs.length < 65536 →
      (aliasEntries c.name r.dict.length hs).map Prod.snd =
        List.range' (r.dict.length + 1) hs.length) := by
  have hreg : register r c =
      ({ h := { services := r.h.services ++ [c.name]
                handlers := (insertHandlers c.name hs r.dict r.h.handlers).2
                chLocalProcess := r.h.chLocalProcess
                chCloseSession := r.h.chCloseSession }
         dict := (insertHandlers c.name hs r.dict r.h.handlers).1
         published := (insertHandlers c.name hs r.dict r.h.handlers).1 }, none) := by
    simp [register, hdup, hex]
  rw [hreg]
  refine ⟨rfl, ?_, rfl, fun hb => aliasEntries_no_wrap c.name hs r.dict.length hb⟩
  exact insertHandlers_dict c.name hs r.dict r.h.handlers hnd hfresh

/-- String concatenation adds lengths. -/
theorem strLength_append (s t : String) : (s ++ t).length = s.length + t.length := by
  cases s
  cases t
  simp [String.length, String.append]

/-- The routes used by the wraparound registration: the i-th handler is named
by i repetitions of the letter a. -/
def bigHandlers : List (String × HandlerDesc) :=
  (List.range 65536).map (fun i => (String.mk (List.replicate i 'a'), hd0))

/-- A single component carrying 65536 handlers. -/
def bigComp : Component := { name := "s", extract := .ok bigHandlers }

/-- The pristine registration state: a fresh handler service, empty alias
dictionary, nothing published yet. -/
def regEmpty : RegState := { h := newHandlerService, dict := [], published := [] }

/-- The qualified route names of `bigHandlers` have pairwise different
lengths, hence are pairwise distinct. -/
theorem bigFullNames_nodup : (fullNames "s" bigHandlers).Nodup := by
  have heq : fullNames "s" bigHandlers =
      (List.range 65536).map (fun i => "s" ++ "." ++ String.mk (List.replicate i 'a')) := by
    simp [fullNames, bigHandlers, List.map_map, Function.comp]
  rw [heq]
  refine List.Nodup.map ?_ (List.nodup_range 65536)
  intro i j hij
  have hlen := congrArg String.length hij
  simp only [strLength_append] at hlen
  have hi : (String.mk (List.replicate i 'a')).length = i := by
    simp [String.length]
  have hj : (String.mk (List.replicate j 'a')).length = j := by
    simp [String.length]
  rw [hi, hj] at hlen
  omega

/-- Claim C4, counterexample: registering `bigComp` into the pristine registry
succeeds, and the resulting alias dictionary assigns the very first route the
alias 1 but the 65536-th route the alias 0 — the `uint16` conversion
`uint16(len(env.dict)) + 1` wraps, so the aliases are not monotonically
increasing from 1 for this successful registration. -/
theorem C4_counterexample :
    (register regEmpty bigComp).2 = none ∧
    ("s" ++ "." ++ String.mk (List.replicate 0 'a'), 1) ∈
      (register regEmpty bigComp).1.dict ∧
    ("s" ++ "." ++ String.mk (List.replicate 65535 'a'), 0) ∈
      (register regEmpty bigComp).1.dict := by
  have hfresh : ∀ fn ∈ fullNames "s" bigHandlers, ∀ p ∈ regEmpty.dict, p.1 ≠ fn := by
    intro fn _ p hp
    simp [regEmpty] at hp
  have hreg := C4_amended regEmpty bigComp bigHandlers rfl (by simp [regEmpty, newHandlerService])
    bigFullNames_nodup hfresh
  have hdict : (register regEmpty bigComp).1.dict = aliasEntries "s" 0 bigHandlers := by
    have hthis := hreg.2.1
    have h1 : regEmpty.dict = [] := rfl
    have h2 : bigComp.name = "s" := rfl
    rw [h1, h2] at hthis
    rw [List.nil_append] at hthis
    exact hthis
  have hlen : bigHandlers.length = 65536 := by
    simp only [bigHandlers, List.length_map, List.length_range]
  refine ⟨hreg.1, ?_, ?_⟩
  · have h0 : (0 : Nat) < bigHandlers.length := by omega
    have hm := aliasEntries_mem "s" bigHandlers 0 0 h0
    have hget : (bigHandlers.get ⟨0, h0⟩).1 = String.mk (List.replicate 0 'a') := by
      simp only [bigHandlers, List.get_eq_getElem, List.getElem_map, List.getElem_range]
    rw [hget] at hm
    have : ((0 + 0) % 65536 + 1) % 65536 = 1 := by norm_num
    rw [this] at hm
    rw [hdict]
    exact hm
  · have h65535 : (65535 : Nat) < bigHandlers.length := by omega
    have hm := aliasEntries_mem "s" bigHandlers 0 65535 h65535
    have hget : (bigHandlers.get ⟨65535, h65535⟩).1 = String.mk (List.replicate 65535 'a') := by
      simp only [bigHandlers, List.get_eq_getElem, List.getElem_map, List.getElem_range]
    rw [hget] at hm
    have : ((0 + 65535) % 65536 + 1) % 65536 = 0 := by norm_num
    rw [this] at hm
    rw [hdict]
    exact hm

/-- A small component used to witness the amended C4: service `w` with two
handlers. -/
def comp2 : Component := { name := "w", extract := .ok [("a", hd0), ("b", hd0)] }

/-- Witness for C4_amended at a concrete input: registering `comp2` into the
pristine registry assigns the consecutive aliases 1 and 2 and publishes the
updated dictionary. -/
theorem C4_witness :
    (register regEmpty comp2).2 = none ∧
    (register regEmpty comp2).1.dict =
      [("w" ++ "." ++ "a", 1), ("w" ++ "." ++ "b", 2)] ∧
    (register regEmpty comp2).1.published = (register regEmpty comp2).1.dict ∧
    (aliasEntries "w" 0 [("a", hd0), ("b", hd0)]).map Prod.snd = List.range' 1 2 := by
  have h := C4_amended regEmpty comp2 [("a", hd0), ("b", hd0)] rfl
    (by simp [regEmpty, newHandlerService]) (by decide) ?_
  · refine ⟨h.1, ?_, h.2.2.1, ?_⟩
    · rw [h.2.1]
      rfl
    · have := h.2.2.2 (by simp [regEmpty])
      simpa [regEmpty] using this
  · intro fn _ p hp
    simp [regEmpty] at hp

/-! ### C5 — duplicate service registration is rejected atomically -/

/-- Claim C5: registering a component whose service name is already present
returns the duplicate-service error with the registry untouched, and more
generally every erroring `register` call (duplicate name or handler-extraction
failure) returns the registry unchanged — registration is atomic, the only
mutating path being the fully successful one. -/
theorem C5_duplicate_unchanged (r : RegState) (c : Component) :
    (c.name ∈ r.h.services →
      register r c = (r, some ("handler: service already defined: " ++ c.name))) ∧
    (∀ e, (register r c).2 = some e → (register r c).1 = r) := by
  constructor
  · intro hmem
    simp [register, hmem]
  · intro e herr
    by_cases hmem : c.name ∈ r.h.services
    · simp [register, hmem]
    · rcases hex : c.extract with e2 | hs
      · simp [register, hmem, hex]
      · simp [register, hmem, hex] at herr

/-- A registration state that already holds the service name `s`. -/
def r3 : RegState :=
  { h := { newHandlerService with services := ["s"] }, dict := [], published := [] }

/-- A second component also named `s`. -/
def compS : Component := { name := "s", extract := .ok [] }

/-- Witness for C5 at a concrete input: re-registering service `s` fails with
the duplicate-service error and leaves the registry untouched. -/
theorem C5_witness :
    register r3 compS = (r3, some ("handler: service already defined: " ++ "s")) ∧
    (register r3 compS).1 = r3 := by
  have h := C5_duplicate_unchanged r3 compS
  have h1 := h.1 (by decide)
  refine ⟨h1, h.2 ("handler: service already defined: " ++ "s") ?_⟩
  rw [h1]
  rfl

/-! ### C6 — message-local failures are dropped without closing -/

/-- Claim C6: when the route is unregistered, an inbound pipeline stage fails,
or deserialization fails, `processMessage` returns with no work item and the
agent untouched; consequently a Data packet carrying such a message yields
`Except.ok` from `processPacket` (no error reaches the read loop), and the
read loop goes on to process the remaining packets of the batch with the
connection still open. -/
theorem C6_message_local_drop (env : Env) (h : handlerService) (ag : Agent)
    (msg : Message)
    (hdrop :
      lookupMap msg.route h.handlers = none ∨
      (∃ e, runPipeline env.pipeline msg.data = .error e) ∨
      (∃ hd payload, lookupMap msg.route h.handlers = some hd ∧
        runPipeline env.pipeline msg.data = .ok payload ∧
        hd.isRawArg = false ∧ env.unmarshal payload = none)) :
    processMessage env h ag msg = (ag, none) ∧
    (∀ raw rest, env.decode raw = .ok msg → statusWorking ≤ ag.status →
      processPacket env h ag { type := .data, data := raw } =
        .ok ({ ag with lastAt := env.now }, none) ∧
      processPackets env h ag ({ type := .data, data := raw } :: rest) =
        processPackets env h { ag with lastAt := env.now } rest) := by
  have hpm : processMessage env h ag msg = (ag, none) := by
    rcases hdrop with hl | ⟨e, hpl⟩ | ⟨hd, payload, hl, hpl, hraw, hum⟩
    · simp [processMessage, hl]
    · rcases hl : lookupMap msg.route h.handlers with _ | hd
      · simp [processMessage, hl]
      · simp [processMessage, hl, hpl]
    · simp [processMessage, hl, hpl, hraw, hum]
  refine ⟨hpm, ?_⟩
  intro raw rest hdec hst
  have hnl : ¬ ag.status < statusWorking := Nat.not_lt.mpr hst
  have hpp : processPacket env h ag { type := .data, data := raw } =
      .ok ({ ag with lastAt := env.now }, none) := by
    simp [processPacket, hnl, handleData, hdec, hpm]
  exact ⟨hpp, by simp [processPackets, hpp]⟩

/-- Witness for C6 at a concrete input: a Data packet decoding to a message
for the unregistered route `nope`, received by a Working agent, is dropped
while the packet loop continues. -/
theorem C6_witness :
    processMessage envDec hs1 agW msgU = (agW, none) ∧
    processPacket envDec hs1 agW { type := .data, data := [] } =
      .ok ({ agW with lastAt := envDec.now }, none) ∧
    processPackets envDec hs1 agW [{ type := .data, data := [] }] =
      processPackets envDec hs1 { agW with lastAt := envDec.now } [] := by
  have h := C6_message_local_drop envDec hs1 agW msgU (Or.inl (by decide))
  have h2 := h.2 [] [] rfl (by decide)
  exact ⟨h.1, h2.1, h2.2⟩

/-! ### C7 — authentication rejection kicks with the caller payload -/

/-- Claim C7: when the configured authentication callback rejects a
Handshake, `processPacket` kicks the session with the caller-supplied error
payload and the connection is closed; the protocol status is untouched, the
authenticated flag is untouched, and nothing (in particular not the
handshake response) is written. -/
theorem C7_auth_reject (env : Env) (h : handlerService) (ag : Agent) (d e : Bytes)
    (f : Bytes → Option Bytes) (hf : env.authFunc = some f) (he : f d = some e) :
    processPacket env h ag { type := .handshake, data := d } =
      .ok ({ ag with kicked := some e, connClosed := true, lastAt := env.now }, none) ∧
    ({ ag with kicked := some e, connClosed := true, lastAt := env.now } : Agent).status
      = ag.status ∧
    ({ ag with kicked := some e, connClosed := true, lastAt := env.now } : Agent).auth
      = ag.auth ∧
    ({ ag with kicked := some e, connClosed := true, lastAt := env.now } : Agent).writes
      = ag.writes := by
  refine ⟨?_, rfl, rfl, rfl⟩
  simp [processPacket, hf, he, kick]

/-- Witness for C7 at a concrete input: the rejecting environment kicks the
fresh agent with the payload `[9]`. -/
theorem C7_witness :
    processPacket envRej newHandlerService newAgent { type := .handshake, data := [] } =
      .ok ({ newAgent with kicked := some [9], connClosed := true,
                           lastAt := envRej.now }, none) :=
  (C7_auth_reject envRej newHandlerService newAgent [] [9] (fun _ => some [9]) rfl rfl).1

/-! ### C8 — bounded work queue with blocking enqueue -/

/-- Claim C8: the pending-work channel is created with the fixed capacity
`packetBacklog = 1024`, and the enqueue of a work item either appends it to
the buffer (preserving everything already queued) or, when the buffer has
reached capacity, blocks — the send yields no post-state and the item remains
with the sender; no work item is ever dropped. -/
theorem C8_backpressure :
    packetBacklog = 1024 ∧
    newHandlerService.chLocalProcess.capacity = 1024 ∧
    newHandlerService.chLocalProcess.buf = [] ∧
    (∀ (h : handlerService) (m : UnhandledMessage) (h2 : handlerService),
      enqueueWork h m = some h2 →
        h2.chLocalProcess.buf = h.chLocalProcess.buf ++ [m] ∧
        h2.chLocalProcess.capacity = h.chLocalProcess.capacity) ∧
    (∀ (h : handlerService) (m : UnhandledMessage),
      enqueueWork h m = none →
        h.chLocalProcess.capacity ≤ h.chLocalProcess.buf.length) := by
  refine ⟨rfl, rfl, rfl, ?_, ?_⟩
  · intro h m h2 hs
    unfold enqueueWork chanSend at hs
    by_cases hlt : h.chLocalProcess.buf.length < h.chLocalProcess.capacity
    · rw [if_pos hlt] at hs
      simp only [Option.map_some', Option.some.injEq] at hs
      subst hs
      exact ⟨rfl, rfl⟩
    · rw [if_neg hlt] at hs
      simp at hs
  · intro h m hs
    unfold enqueueWork chanSend at hs
    by_cases hlt : h.chLocalProcess.buf.length < h.chLocalProcess.capacity
    · rw [if_pos hlt] at hs
      simp at hs
    · exact Nat.not_lt.mp hlt

/-- A sample work item. -/
def wi0 : UnhandledMessage := { lastMid := 0, method := 0, args := [] }

/-- A handler service whose pending-work channel is saturated (capacity 1,
one item buffered). -/
def hsFull : handlerService :=
  { newHandlerService with chLocalProcess := { capacity := 1, buf := [wi0] } }

/-- Witness for C8 at concrete inputs: enqueuing into the fresh service
appends the item; enqueuing into the saturated service finds the buffer at
capacity (the send blocks). -/
theorem C8_witness :
    ({ newHandlerService with
        chLocalProcess := { capacity := 1024, buf := [wi0] } } :
      handlerService).chLocalProcess.buf =
        newHandlerService.chLocalProcess.buf ++ [wi0] ∧
    hsFull.chLocalProcess.capacity ≤ hsFull.chLocalProcess.buf.length :=
  ⟨(C8_backpressure.2.2.2.1 newHandlerService wi0
      { newHandlerService with chLocalProcess := { capacity := 1024, buf := [wi0] } }
      rfl).1,
   C8_backpressure.2.2.2.2 hsFull wi0 rfl⟩

/-! ### C9 — pcall contains handler faults -/

/-- Claim C9: `pcall` is a total function into log records — a handler that
raises a runtime fault produces the `nano/dispatch:` log line plus a stack
trace and `pcall` returns normally; a handler returning a non-nil error
produces a single error log; a clean handler produces nothing; and a faulting
invocation anywhere in a dispatched sequence leaves the processing of every
other invocation unchanged, so the dispatch loop is never terminated by a
handler fault. -/
theorem C9_pcall_isolation :
    (∀ m : String, pcall (HandlerOutcome.panics m) =
      [LogEntry.dispatchPanic ("nano/dispatch: " ++ m), LogEntry.stackTrace]) ∧
    (∀ m : String, pcall (HandlerOutcome.returnsError m) = [LogEntry.handlerError m]) ∧
    pcall HandlerOutcome.returnsOk = [] ∧
    (∀ (pre post : List HandlerOutcome) (m : String),
      dispatchLogs (pre ++ HandlerOutcome.panics m :: post) =
        dispatchLogs pre ++ pcall (HandlerOutcome.panics m) ++ dispatchLogs post) := by
  refine ⟨fun m => rfl, fun m => rfl, rfl, ?_⟩
  intro pre post m
  simp [dispatchLogs, List.map_append]

/-! ### C10 — HandshakeAck is accepted unconditionally -/

/-- Claim C10: in every protocol state (the initial Start state included, with
no Handshake ever processed), a HandshakeAck packet unconditionally sets the
status to Working and returns no error; afterwards a Data packet from the same
agent passes the status gate and is decoded and routed (`handleData` is the
decode-and-route path of `processPacket`). -/
theorem C10_ack_unconditional (env : Env) (h : handlerService) (ag : Agent) (d : Bytes) :
    processPacket env h ag { type := .handshakeAck, data := d } =
      .ok ({ ag with status := statusWorking, lastAt := env.now }, none) ∧
    (∀ raw : Bytes,
      processPacket env h { ag with status := statusWorking, lastAt := env.now }
        { type := .data, data := raw } =
        handleData env h { ag with status := statusWorking, lastAt := env.now } raw) := by
  exact ⟨rfl, fun raw => rfl⟩
